import Mathlib

/-!
Shallow embedding of the WikiTree microdata resolver
(`wikitree/public.py`): the recursive microdata normalizer
`MicrodataView.__process_microdata__`, the lazy-load protocol
(`load`, `__getattr__`, `__repr__`, `__dir__`) and the `Person`
constructor, together with theorems checking the specification's
claims against these definitions.

Python values extracted from a microdata document are strings, lists,
and dicts; the normalizer additionally produces `Person` objects.  We
model this value universe as the inductive type `MD`, where
`MD.person u` stands for an unloaded `Person` object whose `url`
attribute is the (already canonicalized) string `u` — exactly what
`Person.__init__` stores.  Python exceptions are modelled with
`Except Err`.
-/

namespace Wikitree

/-- One Python value in a microdata document or a normalized result:
a string scalar, a list, a dict (association list, insertion order
preserved), or a constructed `Person` object carrying its canonical
identity URL. -/
inductive MD where
  | str : String → MD
  | list : List MD → MD
  | dict : List (String × MD) → MD
  | person : String → MD

/-- The Python exceptions the code under scrutiny can raise, plus
`noMicrodataFound`, which models the distinct failure kind named by the
spec's error taxonomy (§7); the code itself never produces it. -/
inductive Err where
  | transportError : Err
  | indexError : Err
  | keyError : String → Err
  | typeError : Err
  | attributeError : String → Err
  | noMicrodataFound : Err
deriving DecidableEq

/-- `__always_lists__` from `wikitree/public.py`. -/
def alwaysLists : List String := ["spouse", "parent", "marriage", "children"]

/-- Modelled from the spec: the always-multivalued attribute set as §3 of
the spec fixes it, "parent, spouse, sibling, children, marriage"; to be
compared with `alwaysLists`, the set the code actually uses. -/
def specAlwaysLists : List String := ["parent", "spouse", "sibling", "children", "marriage"]

/-- The key strings of `__type__mapping__` (it has the single entry
`http://schema.org/Person ↦ Person`). -/
def typeMapping : List String := ["http://schema.org/Person"]

/-- Python's `key not in __always_lists__` is `True` when `key is None`. -/
def keyInAlways : Option String → Bool
  | none => false
  | some k => alwaysLists.contains k

/-- Substring search on char lists: `subsearch pat l` is true iff `pat`
occurs contiguously in `l`. -/
def subsearch (pat : List Char) : List Char → Bool
  | [] => pat.isEmpty
  | c :: t => pat.isPrefixOf (c :: t) || subsearch pat t

/-- Python's substring test `pat in s` for strings. -/
def strContains (s pat : String) : Bool := subsearch pat.data s.data

/-- `Person.__init__`: the three-way URL canonicalization.  Total: every
string input produces a URL. -/
def personUrl (url : String) : String :=
  if strContains url ("http://") then url
  else if strContains url ("/wiki") then ("http://www.wikitree.com") ++ url
  else ("http://www.wikitree.com/wiki/") ++ url

/-- Python `x[0]` on a microdata value: first element of a list, first
character of a string; `IndexError` when empty, `KeyError`/`TypeError`
on dicts and non-subscriptable objects. -/
def index0 : MD → Except Err MD
  | .list [] => .error .indexError
  | .list (x :: _) => .ok x
  | .str s =>
      match s.data with
      | [] => .error .indexError
      | c :: _ => .ok (.str (String.singleton c))
  | .dict _ => .error (.keyError ("0"))
  | .person _ => .error .typeError

/-- Python `x in __type__mapping__`: string keys are looked up, a
`Person` object is hashable but never a key, lists and dicts are
unhashable (`TypeError`). -/
def tagMem : MD → Except Err Bool
  | .str s => .ok (typeMapping.contains s)
  | .person _ => .ok false
  | .list _ => .error .typeError
  | .dict _ => .error .typeError

/-- Lift a successful list result back into an `MD.list` (the value of
the `[... for d in data]` comprehension). -/
def mapList : Except Err (List MD) → Except Err MD
  | .error e => .error e
  | .ok vs => .ok (.list vs)

/-- Lift a successful entries result back into an `MD.dict`. -/
def mapDict : Except Err (List (String × MD)) → Except Err MD
  | .error e => .error e
  | .ok es => .ok (.dict es)

theorem lookup_mem {k : String} {v : MD} :
    ∀ {l : List (String × MD)}, List.lookup k l = some v → (k, v) ∈ l := by
  intro l
  induction l with
  | nil => intro h; simp [List.lookup] at h
  | cons p t ih =>
      obtain ⟨a, b⟩ := p
      intro h
      simp only [List.lookup] at h
      cases hk : (k == a) with
      | true =>
          rw [hk] at h
          simp only [Option.some.injEq] at h
          subst h
          have hke : k = a := eq_of_beq hk
          subst hke
          exact List.mem_cons_self _ _
      | false =>
          rw [hk] at h
          exact List.mem_cons_of_mem _ (ih h)

theorem sizeOf_lookup {l : List (String × MD)} {k : String} {v : MD}
    (h : List.lookup k l = some v) : sizeOf v < sizeOf l := by
  have hm := lookup_mem h
  have h1 := List.sizeOf_lt_of_mem hm
  have h2 : sizeOf v < sizeOf (k, v) := by
    simp [Prod.mk.sizeOf_spec]
  omega

mutual

/-- `MicrodataView.__process_microdata__(key, data)`, translated
branch-for-branch from the source.  A `key` of `none` models Python's
`None` (the top-level call from `load`). -/
def processMicrodata (key : Option String) (data : MD) : Except Err MD :=
  match data with
  | .list [d] =>
      if keyInAlways key then mapList (processList key [d])
      else processMicrodata key d
  | .list l => mapList (processList key l)
  | .dict entries =>
      match List.lookup ("type") entries with
      | none => mapDict (processEntries entries)
      | some t =>
          match index0 t with
          | .error e => .error e
          | .ok t0 =>
              match tagMem t0 with
              | .error e => .error e
              | .ok true =>
                  -- __type__mapping__[data['type'][0]](data['properties']['url'][0])
                  match List.lookup ("properties") entries with
                  | none => .error (.keyError ("properties"))
                  | some (.dict pr) =>
                      match List.lookup ("url") pr with
                      | none => .error (.keyError ("url"))
                      | some u =>
                          match index0 u with
                          | .error e => .error e
                          | .ok (.str u0) => .ok (.person (personUrl u0))
                          | .ok _ => .error .typeError
                  | some _ => .error .typeError
              | .ok false =>
                  -- self.__process_microdata__(key, dict(data['properties']))
                  match hpr : List.lookup ("properties") entries with
                  | none => .error (.keyError ("properties"))
                  | some (.dict pr) => processMicrodata key (.dict pr)
                  | some _ => .error .typeError
  | .str s =>
      match key with
      | none =>
          -- `'type' in data` is a substring test on a string; both
          -- continuations raise (string indexing / missing `.items()`).
          if strContains s ("type") then .error .typeError
          else .error (.attributeError ("items"))
      | some _ => .ok (.str s)
  | .person u =>
      match key with
      | none => .error .typeError
      | some _ => .ok (.person u)
termination_by sizeOf data
decreasing_by
  all_goals try simp only [MD.list.sizeOf_spec, MD.dict.sizeOf_spec,
    List.cons.sizeOf_spec, List.nil.sizeOf_spec]
  all_goals try omega
  all_goals
    have h1 := sizeOf_lookup hpr
    simp only [MD.dict.sizeOf_spec] at h1
    omega

/-- The list comprehension `[self.__process_microdata__(key, d) for d in data]`:
elementwise, left to right, first exception propagates. -/
def processList (key : Option String) (l : List MD) : Except Err (List MD) :=
  match l with
  | [] => .ok []
  | d :: ds =>
      match processMicrodata key d with
      | .error e => .error e
      | .ok v =>
          match processList key ds with
          | .error e => .error e
          | .ok vs => .ok (v :: vs)
termination_by sizeOf l

/-- The loop `for k, v in data.items(): data[k] = self.__process_microdata__(k, v)`:
every value replaced by its normalization under its own key, key order
preserved. -/
def processEntries (entries : List (String × MD)) : Except Err (List (String × MD)) :=
  match entries with
  | [] => .ok []
  | (k, v) :: es =>
      match processMicrodata (some k) v with
      | .error e => .error e
      | .ok v' =>
          match processEntries es with
          | .error e => .error e
          | .ok es' => .ok ((k, v') :: es')
termination_by sizeOf entries

end

/-- The observable state of a `MicrodataView`/`Person` object: `dict` is
the instance `__dict__` restricted to data attributes (the bookkeeping
slots `__loaded__` and `__data__` are modelled by the separate `loaded`
flag and are not attributes a caller reads). -/
structure Node where
  dict : List (String × MD)
  loaded : Bool

/-- One extracted microdata item: `item.json_dict()['properties']`
(the `microdata` library's `json_dict` always carries a `properties`
mapping). -/
structure Item where
  props : List (String × MD)

/-- The outcome of `urllib.request.urlopen` plus `microdata.get_items`
on this node's URL: either a transport failure or the ordered list of
extracted items.  This is the fetch/extraction collaborator double. -/
inductive FetchResult where
  | transportError : FetchResult
  | items : List Item → FetchResult

/-- `Person.__init__(url)`: a fresh, unloaded node whose only attribute
is the canonicalized identity URL.  Pure — no I/O happens here. -/
def mkPerson (url : String) : Node :=
  { dict := [(("url"), MD.str (personUrl url))], loaded := false }

/-- `MicrodataView.load`: one fetch, take `items[0]`, normalize its
property tree with `key = None`, and replace the whole `__dict__` with
the result.  Every failure is raised before `self` is mutated, so the
caller's node is unchanged on error; the result here is the entire new
node on success.  The prior node state is not consulted. -/
def load (_n : Node) (fr : FetchResult) : Except Err Node :=
  match fr with
  | .transportError => .error .transportError
  | .items [] => .error .indexError
  | .items (it :: _) =>
      match processMicrodata none (.dict it.props) with
      | .error e => .error e
      | .ok (.dict entries) => .ok { dict := entries, loaded := true }
      | .ok _ => .error .typeError

/-- The value a read of a materialized attribute returns: the cached
entry, or `AttributeError` when the name is absent. -/
def lookupAttr (n : Node) (name : String) : Except Err MD :=
  match List.lookup name n.dict with
  | some v => .ok v
  | none => .error (.attributeError name)

/-- One attribute read `node.name`, following Python's protocol: if the
name is in `__dict__` it is returned directly (no `__getattr__` call);
otherwise `__getattr__` runs, loading first when not yet loaded.  The
third component counts fetches performed by this read (0 or 1). -/
def getAttr (n : Node) (name : String) (fr : FetchResult) :
    Except Err MD × Node × Nat :=
  match List.lookup name n.dict with
  | some v => (.ok v, n, 0)
  | none =>
      if n.loaded then (.error (.attributeError name), n, 0)
      else
        match load n fr with
        | .error e => (.error e, n, 1)
        | .ok n' => (lookupAttr n' name, n', 1)

/-- The base prefix stripped by `__repr__` for the short unloaded tag. -/
def wikiBase : String := "http://www.wikitree.com/wiki/"

/-- Stand-in for `pprint.pformat(self.__dict__)` in the loaded branch of
`__repr__`; the spec places output formatting of already-resolved data
out of scope, so only the attribute names are rendered here. -/
def pformatDict (entries : List (String × MD)) : String :=
  (entries.map Prod.fst).foldl (fun a b => a ++ (" ") ++ b) ("")

/-- `MicrodataView.__repr__`: when loaded, a dump of the materialized
mapping; when unloaded, reads `self.url` (through the ordinary attribute
protocol, so a missing `url` would fall back to `__getattr__`) and
renders the short `<Person path>` tag.  Only `Person` subclasses
`MicrodataView`, so the class name is `Person`. -/
def reprOp (n : Node) (fr : FetchResult) : Except Err String × Node × Nat :=
  if n.loaded then (.ok (pformatDict n.dict), n, 0)
  else
    match getAttr n ("url") fr with
    | (.ok (.str u), n', c) =>
        (.ok (("<Person ") ++ (u.replace wikiBase ("")) ++ (">")), n', c)
    | (.ok _, n', c) => (.error .typeError, n', c)
    | (.error e, n', c) => (.error e, n', c)

/-- `Person.__keys__`: the static per-kind declared attribute names. -/
def personKeys : List String :=
  ["additionalName", "birth", "birthDate", "children", "death", "deathDate",
   "familyName", "gender", "givenName", "image", "marriage", "name", "parent",
   "sibling", "spouse", "startDate", "url"]

/-- `MicrodataView.__dir__`: materialized attribute names when loaded,
the static declared set when unloaded.  It touches only `__loaded__`,
`__dict__` and the class attribute `__keys__`, none of which goes
through `__getattr__`, so it performs no fetch and leaves the node
unchanged. -/
def dirOp (n : Node) : List String × Node × Nat :=
  if n.loaded then (n.dict.map Prod.fst, n, 0) else (personKeys, n, 0)

theorem processList_ok_length (k : Option String) :
    ∀ (l vs : List MD), processList k l = .ok vs → vs.length = l.length := by
  intro l
  induction l with
  | nil => intro vs h; simp [processList] at h; simp [← h]
  | cons d ds ih =>
      intro vs h
      rw [processList] at h
      cases hd : processMicrodata k d with
      | error e => rw [hd] at h; exact absurd h (by simp)
      | ok v =>
          rw [hd] at h
          cases hds : processList k ds with
          | error e => rw [hds] at h; exact absurd h (by simp)
          | ok ws =>
              rw [hds] at h
              simp only [Except.ok.injEq] at h
              subst h
              simp [ih ws hds]

theorem load_ok_loaded {m n : Node} {fr : FetchResult}
    (h : load m fr = .ok n) : n.loaded = true := by
  cases fr with
  | transportError => simp [load] at h
  | items l =>
      cases l with
      | nil => simp [load] at h
      | cons it rest =>
          simp only [load] at h
          cases hp : processMicrodata none (.dict it.props) with
          | error e => rw [hp] at h; exact absurd h (by simp)
          | ok v =>
              rw [hp] at h
              cases v with
              | dict entries =>
                  simp only [Except.ok.injEq] at h
                  rw [← h]
              | str s => exact absurd h (by simp)
              | list l2 => exact absurd h (by simp)
              | person u => exact absurd h (by simp)

/-- C1: the claim fixes the always-multivalued set as
parent, spouse, sibling, children, marriage, but `__always_lists__` in
the code is `['spouse', 'parent', 'marriage', 'children']`: `sibling` is
not in it, so a one-element `sibling` list does collapse to its single
element instead of staying a list. -/
theorem c1_counterexample :
    processMicrodata (some ("sibling")) (MD.list [MD.str ("a")]) = .ok (MD.str ("a"))
    ∧ specAlwaysLists.contains ("sibling") = true
    ∧ alwaysLists.contains ("sibling") = false := by
  refine ⟨?_, by decide, by decide⟩
  simp [processMicrodata, keyInAlways, alwaysLists]

/-- C1 (amended): with the always-multivalued set as the code fixes it
(spouse, parent, marriage, children — without sibling), a one-element
list under a name in that set normalizes element-wise and stays a
one-element list, and under every other name (sibling included) it
yields exactly the result of normalizing the single element directly. -/
theorem c1_singleton_rule (k : String) (d : MD) :
    processMicrodata (some k) (MD.list [d]) =
      if alwaysLists.contains k
      then (processMicrodata (some k) d).map (fun v => MD.list [v])
      else processMicrodata (some k) d := by
  by_cases h : alwaysLists.contains k
  · rw [if_pos h]
    rw [processMicrodata]
    simp only [keyInAlways, h, if_pos]
    rw [processList]
    cases hd : processMicrodata (some k) d with
    | error e => simp [processList, mapList, Except.map]
    | ok v => simp [processList, mapList, Except.map]
  · rw [if_neg h]
    rw [processMicrodata]
    simp only [keyInAlways, h]
    simp

/-- C7: for every list whose length is not one (the empty list included)
and for one-element lists under an always-multivalued name, the
normalizer maps over the elements under the same attribute name —
element-wise, order-preserving, and length-preserving — and the empty
list normalizes to the empty list. -/
theorem c7_list_preservation (k : Option String) (l : List MD)
    (h : l.length ≠ 1 ∨ keyInAlways k = true) :
    processMicrodata k (MD.list l) = mapList (processList k l)
    ∧ (processList k l).map List.length = (processList k l).map (fun _ => l.length)
    ∧ processMicrodata k (MD.list ([] : List MD)) = .ok (MD.list []) := by
  refine ⟨?_, ?_, by simp [processMicrodata, processList, mapList]⟩
  · match l with
    | [] =>
        rw [processMicrodata]
        intro x hx
        simp at hx
    | [d] =>
        rcases h with h | h
        · simp at h
        · rw [processMicrodata]; simp only [h, if_pos]
    | d :: d2 :: ds =>
        rw [processMicrodata]
        intro x hx
        simp at hx
  · cases hl : processList k l with
    | error e => simp [Except.map]
    | ok vs => simp [Except.map, processList_ok_length k l vs hl]

/-- C7 witness: a two-element list under an ordinary attribute name. -/
theorem c7_witness :
    (([MD.str ("a"), MD.str ("b")] : List MD).length ≠ 1
      ∨ keyInAlways (some ("name")) = true)
    ∧ (processMicrodata (some ("name")) (MD.list [MD.str ("a"), MD.str ("b")]) =
        mapList (processList (some ("name")) [MD.str ("a"), MD.str ("b")])
      ∧ (processList (some ("name")) [MD.str ("a"), MD.str ("b")]).map List.length =
          (processList (some ("name")) [MD.str ("a"), MD.str ("b")]).map
            (fun _ => ([MD.str ("a"), MD.str ("b")] : List MD).length)
      ∧ processMicrodata (some ("name")) (MD.list ([] : List MD)) = .ok (MD.list [])) :=
  ⟨Or.inl (by decide),
   c7_list_preservation (some ("name")) [MD.str ("a"), MD.str ("b")] (Or.inl (by decide))⟩

/-- C4: the claim says zero extracted microdata items surface as a
distinct NoMicrodataFound failure; the code instead evaluates
`items[0]` on the empty result and surfaces a plain IndexError — the
distinct failure kind exists only in the spec's taxonomy. -/
theorem c4_counterexample :
    load (mkPerson ("X-1")) (.items []) = .error .indexError
    ∧ Err.indexError ≠ Err.noMicrodataFound :=
  ⟨rfl, by decide⟩

/-- C4 (amended): when extraction yields zero items, Load fails at Load
time with the index error from `items[0]`, not with a dedicated
NoMicrodataFound failure. -/
theorem c4_empty_extraction (n : Node) :
    load n (.items []) = .error .indexError := rfl

/-- C3: a property bag whose first listed type tag is the mapped
`http://schema.org/Person` normalizes to a freshly constructed `Person`
built from the first element of the bag's `url` property; the node is
unloaded, its only attribute the canonical URL, and the normalizer
(a pure function) stops there — none of the bag's other properties is
recursed into and no I/O happens. -/
theorem c3_typed_reference (k : Option String) (entries pr : List (String × MD))
    (t u : MD) (u0 : String)
    (ht : List.lookup ("type") entries = some t)
    (h0 : index0 t = .ok (MD.str ("http://schema.org/Person")))
    (hp : List.lookup ("properties") entries = some (MD.dict pr))
    (hu : List.lookup ("url") pr = some u)
    (h1 : index0 u = .ok (MD.str u0)) :
    processMicrodata k (MD.dict entries) = .ok (MD.person (personUrl u0))
    ∧ mkPerson u0 = { dict := [(("url"), MD.str (personUrl u0))], loaded := false } := by
  refine ⟨?_, rfl⟩
  have htm : tagMem (MD.str ("http://schema.org/Person")) = .ok true := rfl
  rw [processMicrodata]
  simp only [ht, h0, htm, hp, hu, h1]

/-- C3 witness: a concrete typed child reference. -/
theorem c3_witness :
    (List.lookup ("type")
        [(("type"), MD.list [MD.str ("http://schema.org/Person")]),
         (("properties"), MD.dict [(("url"), MD.list [MD.str ("/wiki/X-2")])])] =
      some (MD.list [MD.str ("http://schema.org/Person")]))
    ∧ (index0 (MD.list [MD.str ("http://schema.org/Person")]) =
        .ok (MD.str ("http://schema.org/Person")))
    ∧ (processMicrodata (some ("children"))
        (MD.dict [(("type"), MD.list [MD.str ("http://schema.org/Person")]),
                  (("properties"), MD.dict [(("url"), MD.list [MD.str ("/wiki/X-2")])])]) =
        .ok (MD.person (personUrl ("/wiki/X-2")))
      ∧ mkPerson ("/wiki/X-2") =
          { dict := [(("url"), MD.str (personUrl ("/wiki/X-2")))], loaded := false }) :=
  ⟨rfl, rfl,
   c3_typed_reference (some ("children"))
     [(("type"), MD.list [MD.str ("http://schema.org/Person")]),
      (("properties"), MD.dict [(("url"), MD.list [MD.str ("/wiki/X-2")])])]
     [(("url"), MD.list [MD.str ("/wiki/X-2")])]
     (MD.list [MD.str ("http://schema.org/Person")])
     (MD.list [MD.str ("/wiki/X-2")]) ("/wiki/X-2") rfl rfl rfl rfl rfl⟩

/-- C8: the claim says every bag with an unrecognized or missing type
tag normalizes to a plain per-key mapping; but when the bag's property
mapping itself contains an attribute named `type`, the recursive call
re-dispatches on it as a type tag — here a bag tagged with the
unrecognized `http://unknown` whose properties hold a `type` and a
`name` attribute ends in a KeyError on `properties` instead of the
plain mapping the claim promises. -/
theorem c8_counterexample :
    processMicrodata (some ("p"))
      (MD.dict [(("type"), MD.list [MD.str ("http://unknown")]),
                (("properties"),
                 MD.dict [(("type"), MD.list [MD.str ("x")]),
                          (("name"), MD.list [MD.str ("Jane")])])]) =
      .error (.keyError ("properties")) := by
  simp [processMicrodata, List.lookup, index0, tagMem, typeMapping]

/-- The bags for which the spec's plain-mapping rule does hold on the
code: untagged bags (no `type` key), and bags tagged with a first type
outside the mapping whose `properties` value is a dict that itself has
no `type` key.  The returned mapping is the one the code recurses into. -/
def plainBagTarget (entries : List (String × MD)) : Option (List (String × MD)) :=
  match List.lookup ("type") entries with
  | none => some entries
  | some t =>
      match index0 t with
      | .ok (.str s) =>
          if typeMapping.contains s then none
          else
            match List.lookup ("properties") entries with
            | some (.dict pr) =>
                match List.lookup ("type") pr with
                | none => some pr
                | some _ => none
            | _ => none
      | _ => none

theorem process_dict_unrecognized (k : Option String) (entries pd : List (String × MD))
    (t : MD) (s : String)
    (ht : List.lookup ("type") entries = some t)
    (h0 : index0 t = .ok (MD.str s))
    (hs : typeMapping.contains s = false)
    (hpr : List.lookup ("properties") entries = some (MD.dict pd)) :
    processMicrodata k (MD.dict entries) = processMicrodata k (MD.dict pd) := by
  have htm : tagMem (MD.str s) = .ok (typeMapping.contains s) := rfl
  rw [processMicrodata.eq_def]
  simp only [ht, h0, htm, hs]
  split
  · next heq => rw [heq] at hpr; exact Option.noConfusion hpr
  · next pr2 heq =>
      rw [heq] at hpr
      simp only [Option.some.injEq, MD.dict.injEq] at hpr
      rw [hpr]
  · next hne heq =>
      rw [heq] at hpr
      simp only [Option.some.injEq] at hpr
      subst hpr
      exact (hne pd rfl).elim

/-- C8 (amended): a bag with an unrecognized or missing type tag
normalizes to the plain mapping obtained by normalizing each value of
the selected attribute mapping under its own key — provided that
mapping does not itself contain an attribute named `type` (if it does,
the code re-dispatches on it as a type tag instead); no entity node is
constructed on this path. -/
theorem c8_plain_mapping (k : Option String) (entries pr : List (String × MD))
    (h : plainBagTarget entries = some pr) :
    processMicrodata k (MD.dict entries) = mapDict (processEntries pr) := by
  cases ht : List.lookup ("type") entries with
  | none =>
      simp only [plainBagTarget, ht, Option.some.injEq] at h
      subst h
      rw [processMicrodata.eq_def]
      simp only [ht]
  | some t =>
      cases h0 : index0 t with
      | error e => simp [plainBagTarget, ht, h0] at h
      | ok t0 =>
          cases t0 with
          | str s =>
              cases hs : typeMapping.contains s with
              | true =>
                  simp only [plainBagTarget, ht, h0, hs, reduceIte] at h
                  exact Option.noConfusion h
              | false =>
                  cases hpr : List.lookup ("properties") entries with
                  | none => simp [plainBagTarget, ht, h0, hs, hpr] at h
                  | some pv =>
                      cases pv with
                      | dict pd =>
                          cases hpt : List.lookup ("type") pd with
                          | none =>
                              simp only [plainBagTarget, ht, h0, hs, hpr, hpt,
                                Bool.false_eq_true, if_false, Option.some.injEq] at h
                              subst h
                              rw [process_dict_unrecognized k entries pd t s ht h0 hs hpr]
                              rw [processMicrodata.eq_def]
                              simp only [hpt]
                          | some w => simp [plainBagTarget, ht, h0, hs, hpr, hpt] at h
                      | str s2 => simp [plainBagTarget, ht, h0, hs, hpr] at h
                      | list l2 => simp [plainBagTarget, ht, h0, hs, hpr] at h
                      | person u2 => simp [plainBagTarget, ht, h0, hs, hpr] at h
          | list l2 => simp [plainBagTarget, ht, h0] at h
          | dict d2 => simp [plainBagTarget, ht, h0] at h
          | person u2 => simp [plainBagTarget, ht, h0] at h

/-- C8 witness: an untagged bag with one ordinary attribute. -/
theorem c8_witness :
    (plainBagTarget [(("name"), MD.list [MD.str ("Jane")])] =
      some [(("name"), MD.list [MD.str ("Jane")])])
    ∧ processMicrodata (some ("p")) (MD.dict [(("name"), MD.list [MD.str ("Jane")])]) =
        mapDict (processEntries [(("name"), MD.list [MD.str ("Jane")])]) :=
  ⟨rfl, c8_plain_mapping (some ("p")) [(("name"), MD.list [MD.str ("Jane")])]
    [(("name"), MD.list [MD.str ("Jane")])] rfl⟩

/-- C5: construction is total (a plain function of the input string,
no I/O and no failure) and follows the three-way rule — a string
containing `http://` is kept as-is, a string containing the `/wiki`
marker is prefixed with the site origin, anything else is expanded via
the profile template — so the absolute URL, the site-relative path and
the bare identifier of one profile canonicalize to the same identity
URL. -/
theorem c5_construct_identity (id : String)
    (h1 : strContains id ("http://") = false)
    (h2 : strContains id ("/wiki") = false)
    (h3 : strContains (("/wiki/") ++ id) ("http://") = false)
    (h4 : strContains (("http://www.wikitree.com/wiki/") ++ id) ("http://") = true)
    (h5 : strContains (("/wiki/") ++ id) ("/wiki") = true) :
    personUrl (("http://www.wikitree.com/wiki/") ++ id) =
        ("http://www.wikitree.com/wiki/") ++ id
    ∧ personUrl (("/wiki/") ++ id) = ("http://www.wikitree.com/wiki/") ++ id
    ∧ personUrl id = ("http://www.wikitree.com/wiki/") ++ id := by
  refine ⟨?_, ?_, ?_⟩
  · simp [personUrl, h4]
  · simp only [personUrl, h3, h5, Bool.false_eq_true, if_false, if_true]
    rw [← String.append_assoc]
    rfl
  · simp [personUrl, h1, h2]

/-- C5 witness: the three spellings of the profile `Sloan-518`. -/
theorem c5_witness :
    (strContains ("Sloan-518") ("http://") = false)
    ∧ (strContains ("Sloan-518") ("/wiki") = false)
    ∧ (strContains (("/wiki/") ++ ("Sloan-518")) ("http://") = false)
    ∧ (personUrl (("http://www.wikitree.com/wiki/") ++ ("Sloan-518")) =
          ("http://www.wikitree.com/wiki/") ++ ("Sloan-518")
      ∧ personUrl (("/wiki/") ++ ("Sloan-518")) =
          ("http://www.wikitree.com/wiki/") ++ ("Sloan-518")
      ∧ personUrl ("Sloan-518") = ("http://www.wikitree.com/wiki/") ++ ("Sloan-518")) :=
  ⟨rfl, rfl, rfl, c5_construct_identity ("Sloan-518") rfl rfl rfl rfl rfl⟩

/-- C2: a successful implicit load marks the node loaded; the read that
forced it performs exactly one fetch and returns the freshly cached
value; and on a loaded node every further read of any attribute returns
the cached normalized value with the node unchanged and zero fetches —
loaded nodes never become unloaded. -/
theorem c2_single_load (m n : Node) (name name2 : String) (fr fr2 : FetchResult)
    (hm : m.loaded = false)
    (hmiss : List.lookup name m.dict = none)
    (hld : load m fr = .ok n) :
    getAttr m name fr = (lookupAttr n name, n, 1)
    ∧ n.loaded = true
    ∧ getAttr n name2 fr2 = (lookupAttr n name2, n, 0) := by
  have hl := load_ok_loaded hld
  refine ⟨?_, hl, ?_⟩
  · simp [getAttr, hmiss, hm, hld]
  · simp only [getAttr]
    cases h2 : List.lookup name2 n.dict with
    | some v => simp [lookupAttr, h2]
    | none => simp [lookupAttr, h2, hl]

/-- C2 witness: a fetch-count collaborator double returning one item;
the first read fetches once, the second read fetches zero times. -/
theorem c2_witness :
    ((mkPerson ("X-1")).loaded = false)
    ∧ (List.lookup ("name") (mkPerson ("X-1")).dict = none)
    ∧ (load (mkPerson ("X-1"))
          (.items [⟨[(("name"), MD.list [MD.str ("Jane")])]⟩]) =
        .ok (Node.mk [(("name"), MD.str ("Jane"))] true))
    ∧ (getAttr (mkPerson ("X-1")) ("name")
          (.items [⟨[(("name"), MD.list [MD.str ("Jane")])]⟩]) =
        (lookupAttr (Node.mk [(("name"), MD.str ("Jane"))] true) ("name"),
         Node.mk [(("name"), MD.str ("Jane"))] true, 1)
      ∧ (Node.mk [(("name"), MD.str ("Jane"))] true).loaded = true
      ∧ getAttr (Node.mk [(("name"), MD.str ("Jane"))] true) ("name") .transportError =
          (lookupAttr (Node.mk [(("name"), MD.str ("Jane"))] true) ("name"),
           Node.mk [(("name"), MD.str ("Jane"))] true, 0)) :=
  ⟨rfl, rfl,
   by simp [load, processMicrodata, processList, processEntries, keyInAlways,
     alwaysLists, mapList, mapDict, List.lookup],
   c2_single_load (mkPerson ("X-1")) (Node.mk [(("name"), MD.str ("Jane"))] true)
     ("name") ("name")
     (.items [⟨[(("name"), MD.list [MD.str ("Jane")])]⟩]) .transportError
     rfl rfl
     (by simp [load, processMicrodata, processList, processEntries, keyInAlways,
       alwaysLists, mapList, mapDict, List.lookup])⟩

/-- C6: when a load attempt fails — transport error, empty extraction,
or a normalization lookup failure — the attribute read returns that
error with the node exactly as it was (still unloaded, nothing
materialized), and the same read against a working collaborator
afterwards performs the fetch again and succeeds: failures are not
cached. -/
theorem c6_failed_load (n n2 : Node) (name : String) (fr fr2 : FetchResult)
    (e : Err) (v : MD)
    (hl : n.loaded = false)
    (hn : List.lookup name n.dict = none)
    (hf : load n fr = .error e)
    (hf2 : load n fr2 = .ok n2)
    (hv : List.lookup name n2.dict = some v) :
    getAttr n name fr = (.error e, n, 1)
    ∧ getAttr n name fr2 = (.ok v, n2, 1) := by
  constructor
  · simp [getAttr, hn, hl, hf]
  · simp [getAttr, hn, hl, hf2, lookupAttr, hv]

/-- C6 witness: a transport failure followed by a successful retry on
the same (unchanged) node. -/
theorem c6_witness :
    ((mkPerson ("X-1")).loaded = false)
    ∧ (load (mkPerson ("X-1")) .transportError = .error .transportError)
    ∧ (getAttr (mkPerson ("X-1")) ("name") .transportError =
        (.error .transportError, mkPerson ("X-1"), 1)
      ∧ getAttr (mkPerson ("X-1")) ("name")
          (.items [⟨[(("name"), MD.list [MD.str ("Jane")])]⟩]) =
          (.ok (MD.str ("Jane")), Node.mk [(("name"), MD.str ("Jane"))] true, 1)) :=
  ⟨rfl, rfl,
   c6_failed_load (mkPerson ("X-1")) (Node.mk [(("name"), MD.str ("Jane"))] true)
     ("name") .transportError
     (.items [⟨[(("name"), MD.list [MD.str ("Jane")])]⟩])
     .transportError (MD.str ("Jane"))
     rfl rfl rfl
     (by simp [load, processMicrodata, processList, processEntries, keyInAlways,
       alwaysLists, mapList, mapDict, List.lookup])
     rfl⟩

/-- C9: on an unloaded node (whose `url` attribute is present from
construction), `__repr__` renders the kind name with the identity URL
stripped of the site prefix and `__dir__` returns the static declared
attribute set; both leave the node unchanged and perform zero
fetches. -/
theorem c9_introspection (n : Node) (fr : FetchResult) (u : String)
    (h : n.loaded = false)
    (hu : List.lookup ("url") n.dict = some (MD.str u)) :
    reprOp n fr = (.ok (("<Person ") ++ (u.replace wikiBase ("")) ++ (">")), n, 0)
    ∧ dirOp n = (personKeys, n, 0) := by
  constructor
  · simp [reprOp, h, getAttr, hu]
  · simp [dirOp, h]

/-- C9 witness: a freshly constructed person. -/
theorem c9_witness :
    ((mkPerson ("Sloan-518")).loaded = false)
    ∧ (List.lookup ("url") (mkPerson ("Sloan-518")).dict =
        some (MD.str (personUrl ("Sloan-518"))))
    ∧ (reprOp (mkPerson ("Sloan-518")) .transportError =
        (.ok (("<Person ") ++ ((personUrl ("Sloan-518")).replace wikiBase ("")) ++ (">")),
         mkPerson ("Sloan-518"), 0)
      ∧ dirOp (mkPerson ("Sloan-518")) = (personKeys, mkPerson ("Sloan-518"), 0)) :=
  ⟨rfl, rfl,
   c9_introspection (mkPerson ("Sloan-518")) .transportError
     (personUrl ("Sloan-518")) rfl rfl⟩

/-- C10: a successful Load's result does not depend on the node's prior
state at all — the whole attribute mapping is replaced by the document's
normalized mapping — so the construction-time `url` identity attribute
is not preserved: with a document that carries no `url` property, the
loaded node has no `url` attribute even though the unloaded node did. -/
theorem c10_load_replaces (n m : Node) (fr : FetchResult) (it : Item)
    (u : String) (entries : List (String × MD))
    (hu : List.lookup ("url") n.dict = some (MD.str u))
    (hp : processMicrodata none (MD.dict it.props) = .ok (MD.dict entries))
    (hnu : List.lookup ("url") entries = none) :
    load n fr = load m fr
    ∧ load n (.items [it]) = .ok (Node.mk entries true)
    ∧ List.lookup ("url") (Node.mk entries true).dict = none := by
  refine ⟨rfl, ?_, hnu⟩
  simp [load, hp]

/-- C10 witness: two differently constructed nodes and a document
without a `url` property. -/
theorem c10_witness :
    (List.lookup ("url") (mkPerson ("A")).dict = some (MD.str (personUrl ("A"))))
    ∧ (processMicrodata none
          (MD.dict (Item.mk [(("name"), MD.list [MD.str ("Jane")])]).props) =
        .ok (MD.dict [(("name"), MD.str ("Jane"))]))
    ∧ (List.lookup ("url") [(("name"), MD.str ("Jane"))] = none)
    ∧ (load (mkPerson ("A")) .transportError = load (mkPerson ("B")) .transportError
      ∧ load (mkPerson ("A")) (.items [Item.mk [(("name"), MD.list [MD.str ("Jane")])]]) =
          .ok (Node.mk [(("name"), MD.str ("Jane"))] true)
      ∧ List.lookup ("url") (Node.mk [(("name"), MD.str ("Jane"))] true).dict = none) :=
  ⟨rfl,
   by simp [processMicrodata, processList, processEntries, keyInAlways,
     alwaysLists, mapList, mapDict, List.lookup],
   rfl,
   c10_load_replaces (mkPerson ("A")) (mkPerson ("B")) .transportError
     (Item.mk [(("name"), MD.list [MD.str ("Jane")])])
     (personUrl ("A")) [(("name"), MD.str ("Jane"))]
     rfl
     (by simp [processMicrodata, processList, processEntries, keyInAlways,
       alwaysLists, mapList, mapDict, List.lookup])
     rfl⟩

end Wikitree
